import Mathlib

/-!
Shallow embedding of the file-I/O syscall layer in `src/os6/src/syscall/fs.rs`
(`sys_write`, `sys_read`, `sys_open`, `sys_close`, `sys_fstat`, `sys_linkat`,
`sys_unlinkat`).  The collaborators that live outside this source file
(virtual-memory translation, the task control block's `alloc_fd`, the
filesystem facade `open_file` / `linkat` / `unlinkat`, and the file-handle
read/write/info capabilities) are modelled from the specification, as noted on
each definition.  Every syscall is instrumented with an event trace recording,
in program order, lock acquisition/release, user-memory translation, I/O on a
file handle, and facade invocations, so that the temporal and frame-effect
properties can be stated about the trace.
-/

namespace Os6

/-- An open file handle, opaque at this layer; multiple descriptor slots may
share one handle.  Identified by a code. -/
abbrev File := Nat

/-- A path string, opaque at this layer; `translated_str` produces one and the
dispatcher only ever compares them for equality, so paths are coded as numbers. -/
abbrev Path := Nat

/-- A scatter-gather buffer: a sequence of byte-range segments, as produced by
`translated_byte_buffer`. -/
abbrev Buffer := List (List Nat)

/-- Events emitted by the instrumented syscalls, in program order. -/
inductive Ev where
  /-- the process's exclusive lock is taken (`inner_exclusive_access`) -/
  | lockAcquire
  /-- the process's exclusive lock is released (`drop(inner)` or end of scope) -/
  | lockRelease
  /-- user buffer translation (`translated_byte_buffer`) -/
  | translateBuf
  /-- user string translation (`translated_str`) -/
  | translateStr
  /-- user single-value translation (`translated_refmut`) -/
  | translateRef
  /-- a file handle's `read` is invoked -/
  | ioRead
  /-- a file handle's `write` is invoked -/
  | ioWrite
  /-- a file handle's `info` is invoked (writes the user `Stat`) -/
  | ioInfo
  /-- the facade's `open_file` is invoked -/
  | facadeOpen
  /-- the facade's `linkat` is invoked -/
  | facadeLink
  /-- the facade's `unlinkat` is invoked -/
  | facadeUnlink
deriving DecidableEq

/-- Modelled from the spec: the external capabilities consumed by the
dispatcher that are not defined in `src/` — address-space translation
(`translateString`, `translateBuffer`), the file-handle read/write byte-count
capabilities, the facade's `openFile`, and the set of recognized open-flag bit
patterns (`OpenFlags::from_bits` succeeds exactly on recognized patterns). -/
structure Env where
  /-- `translated_str token ptr`: the owned path string read from user memory -/
  strOf : Nat → Nat → Path
  /-- `translated_byte_buffer token ptr len`: scatter-gather segments -/
  bufOf : Nat → Nat → Nat → Buffer
  /-- file handle `write(buffer)` → transferred byte count (a `usize`) -/
  writeFn : File → Buffer → Nat
  /-- file handle `read(buffer)` → transferred byte count (a `usize`) -/
  readFn : File → Buffer → Nat
  /-- facade `open_file(path, flags)` → optional handle -/
  openFile : Path → Nat → Option File
  /-- whether the raw `flags` bit pattern is a recognized combination -/
  okFlags : Nat → Bool

/-- The Rust cast `usize as isize`: two's-complement reinterpretation of a
64-bit unsigned value as a signed one. -/
def usizeToIsize (n : Nat) : Int :=
  if n % 2 ^ 64 < 2 ^ 63 then ((n % 2 ^ 64 : Nat) : Int)
  else ((n % 2 ^ 64 : Nat) : Int) - 2 ^ 64

/-- `sys_write(fd, buf, len)` from `fs.rs`: acquire the lock, bounds-check
`fd`, and on an occupied slot clone the handle, drop the lock, translate the
buffer and invoke the handle's `write`, casting the count to `isize`;
otherwise return `-1`. -/
def sys_write (env : Env) (tbl : List (Option File)) (token fd bufPtr len : Nat) :
    Int × List Ev :=
  if fd ≥ tbl.length then
    (-1, [Ev.lockAcquire, Ev.lockRelease])
  else
    match tbl.getD fd none with
    | some f =>
        (usizeToIsize (env.writeFn f (env.bufOf token bufPtr len)),
         [Ev.lockAcquire, Ev.lockRelease, Ev.translateBuf, Ev.ioWrite])
    | none => (-1, [Ev.lockAcquire, Ev.lockRelease])

/-- `sys_read(fd, buf, len)` from `fs.rs`: same shape as `sys_write` with the
handle's `read`. -/
def sys_read (env : Env) (tbl : List (Option File)) (token fd bufPtr len : Nat) :
    Int × List Ev :=
  if fd ≥ tbl.length then
    (-1, [Ev.lockAcquire, Ev.lockRelease])
  else
    match tbl.getD fd none with
    | some f =>
        (usizeToIsize (env.readFn f (env.bufOf token bufPtr len)),
         [Ev.lockAcquire, Ev.lockRelease, Ev.translateBuf, Ev.ioRead])
    | none => (-1, [Ev.lockAcquire, Ev.lockRelease])

/-- Modelled from the spec: the task control block's `alloc_fd` (not under
`src/`) — linear scan for the first empty slot of the descriptor table,
returning its index; if none is empty the table is extended by one slot. -/
def alloc_fd : List (Option File) → Nat
  | [] => 0
  | none :: _ => 0
  | some _ :: rest => alloc_fd rest + 1

/-- The combined effect of `alloc_fd` followed by `fd_table[fd] = Some(inode)`
in `sys_open`: the resulting index together with the updated table. -/
def allocStore (f : File) : List (Option File) → Nat × List (Option File)
  | [] => (0, [some f])
  | none :: rest => (0, some f :: rest)
  | some g :: rest =>
      let r := allocStore f rest
      (r.1 + 1, some g :: r.2)

/-- `sys_open(path, flags)` from `fs.rs`: translate the path, decode the flags
with `OpenFlags::from_bits(flags).unwrap()` — `none` models the panic of
`unwrap` on an unrecognized bit pattern — then ask the facade; on a handle,
take the lock, allocate a slot, store the handle and return its index; on no
handle return `-1`.  The result is the signed return value paired with the
updated table, or `none` for the kernel panic. -/
def sys_open (env : Env) (tbl : List (Option File)) (token pathPtr flags : Nat) :
    Option (Int × List (Option File)) × List Ev :=
  let path := env.strOf token pathPtr
  if env.okFlags flags then
    match env.openFile path flags with
    | some f =>
        let r := allocStore f tbl
        (some ((r.1 : Int), r.2),
         [Ev.translateStr, Ev.facadeOpen, Ev.lockAcquire, Ev.lockRelease])
    | none => (some (-1, tbl), [Ev.translateStr, Ev.facadeOpen])
  else
    (none, [Ev.translateStr])

/-- `sys_close(fd)` from `fs.rs`: bounds-check, reject an empty slot, else
`take()` the slot (emptying it) and return `0`. -/
def sys_close (tbl : List (Option File)) (fd : Nat) :
    Int × List (Option File) × List Ev :=
  if fd ≥ tbl.length then
    (-1, tbl, [Ev.lockAcquire, Ev.lockRelease])
  else if (tbl.getD fd none).isNone then
    (-1, tbl, [Ev.lockAcquire, Ev.lockRelease])
  else
    (0, tbl.set fd none, [Ev.lockAcquire, Ev.lockRelease])

/-- `sys_fstat(fd, st)` from `fs.rs`: bounds-check under the lock; on an
occupied slot translate the user `Stat` pointer and invoke the handle's
`info` (still holding the lock, which is released at end of scope); else
`-1`. -/
def sys_fstat (tbl : List (Option File)) (fd : Nat) : Int × List Ev :=
  if fd ≥ tbl.length then
    (-1, [Ev.lockAcquire, Ev.lockRelease])
  else
    match tbl.getD fd none with
    | some _ =>
        (0, [Ev.lockAcquire, Ev.translateRef, Ev.ioInfo, Ev.lockRelease])
    | none => (-1, [Ev.lockAcquire, Ev.lockRelease])

/-- Modelled from the spec: filesystem state visible to link/unlink — named
directory entries mapping a path to an inode, and each inode's hard-link
count (an association list). -/
structure FsState where
  dirents : List (Path × Nat)
  links : List (Nat × Nat)
deriving DecidableEq

/-- First value bound to a key in an association list. -/
def assocFind (k : Nat) : List (Nat × Nat) → Option Nat
  | [] => none
  | (a, b) :: rest => if a = k then some b else assocFind k rest

/-- Adjust the binding of a key in an association list by `d`. -/
def assocAdd (k : Nat) (d : Int) : List (Nat × Nat) → List (Nat × Nat)
  | [] => []
  | (a, b) :: rest =>
      if a = k then (a, (( b : Int) + d).toNat) :: rest
      else (a, b) :: assocAdd k d rest

/-- Remove the first entry bound to a key in an association list. -/
def assocRemove (k : Nat) : List (Nat × Nat) → List (Nat × Nat)
  | [] => []
  | (a, b) :: rest => if a = k then rest else (a, b) :: assocRemove k rest

/-- Modelled from the spec: the facade's `linkat(old, new)` (not under
`src/`) — creates a new directory entry referencing the existing inode and
increments its link count; its status on a missing old path is a facade-level
failure (`-1`), which `sys_linkat` ignores. -/
def fsLinkat (fs : FsState) (old nw : Path) : FsState × Int :=
  match assocFind old fs.dirents with
  | some ino => (⟨fs.dirents ++ [(nw, ino)], assocAdd ino 1 fs.links⟩, 0)
  | none => (fs, -1)

/-- Modelled from the spec: the facade's `unlinkat(path)` (not under `src/`)
— locate the entry (failure `-1` if the name does not exist), remove it and
decrement the inode's link count, returning `0`. -/
def fsUnlinkat (fs : FsState) (name : Path) : FsState × Int :=
  match assocFind name fs.dirents with
  | some ino => (⟨assocRemove name fs.dirents, assocAdd ino (-1) fs.links⟩, 0)
  | none => (fs, -1)

/-- `sys_linkat(old, new)` from `fs.rs`: translate both strings; if they are
equal return `-1` without touching the facade; otherwise invoke the facade's
`linkat`, discard its status, and return `0`. -/
def sys_linkat (env : Env) (fs : FsState) (token oldPtr newPtr : Nat) :
    Int × FsState × List Ev :=
  let old := env.strOf token oldPtr
  let nw := env.strOf token newPtr
  if old = nw then
    (-1, fs, [Ev.translateStr, Ev.translateStr])
  else
    let r := fsLinkat fs old nw
    (0, r.1, [Ev.translateStr, Ev.translateStr, Ev.facadeLink])

/-- `sys_unlinkat(path)` from `fs.rs`: translate the string and return the
facade's signed result verbatim. -/
def sys_unlinkat (env : Env) (fs : FsState) (token namePtr : Nat) :
    Int × FsState × List Ev :=
  let name := env.strOf token namePtr
  let r := fsUnlinkat fs name
  (r.2, r.1, [Ev.translateStr, Ev.facadeUnlink])

/-- Events that touch user memory or perform I/O: buffer/string/value
translation and file-handle operations. -/
def ioEv : Ev → Bool
  | Ev.translateBuf => true
  | Ev.translateStr => true
  | Ev.translateRef => true
  | Ev.ioRead => true
  | Ev.ioWrite => true
  | Ev.ioInfo => true
  | _ => false

/-- `lockDisc held tr` holds when, replaying the trace `tr` from lock state
`held`, no translation or I/O event happens while the lock is held. -/
def lockDisc : Bool → List Ev → Bool
  | _, [] => true
  | _, Ev.lockAcquire :: rest => lockDisc true rest
  | _, Ev.lockRelease :: rest => lockDisc false rest
  | held, e :: rest => (!(ioEv e && held)) && lockDisc held rest

/-- A descriptor is invalid when it is out of range or its slot is empty. -/
def fdInvalid (tbl : List (Option File)) (fd : Nat) : Prop :=
  tbl.length ≤ fd ∨ tbl.getD fd none = none

instance (tbl : List (Option File)) (fd : Nat) : Decidable (fdInvalid tbl fd) := by
  unfold fdInvalid
  infer_instance

/-- A concrete environment used to instantiate witnesses. -/
def env0 : Env :=
  ⟨fun _ p => p, fun _ _ len => [[len]], fun _ _ => 5, fun _ _ => 3,
   fun p _ => if p = 9 then none else some (p + 100), fun fl => fl < 4⟩

/-- A concrete filesystem state used to instantiate witnesses: one entry for
path `1` bound to inode `7`, whose link count is `1`. -/
def fs0 : FsState := ⟨[(1, 7)], [(7, 1)]⟩

theorem usizeToIsize_small (n : Nat) (h : n < 2 ^ 63) : usizeToIsize n = n := by
  have h64 : n < 2 ^ 64 := lt_trans h (by norm_num)
  unfold usizeToIsize
  rw [Nat.mod_eq_of_lt h64, if_pos h]

theorem getD_some_lt {tbl : List (Option File)} {fd : Nat} {f : File}
    (h : tbl.getD fd none = some f) : fd < tbl.length := by
  by_contra hge
  rw [List.getD_eq_getElem?_getD, List.getElem?_eq_none (by omega)] at h
  simp at h

theorem natCast_fst_ne_negOne (n : Nat) (l : List Ev) : ¬ (((n : Int), l).1 = -1) := by
  intro hc
  have h : (n : Int) = -1 := hc
  omega

theorem fdInvalid_iff (tbl : List (Option File)) (fd : Nat) :
    fdInvalid tbl fd ↔ tbl.getD fd none = none := by
  unfold fdInvalid
  constructor
  · rintro (h | h)
    · rw [List.getD_eq_getElem?_getD, List.getElem?_eq_none (by omega)]
      rfl
    · exact h
  · exact fun h => Or.inr h

section CaseLemmas

variable {env : Env} {tbl : List (Option File)} {token fd bufPtr len : Nat}

theorem sys_write_invalid (h : tbl.getD fd none = none) :
    sys_write env tbl token fd bufPtr len = (-1, [Ev.lockAcquire, Ev.lockRelease]) := by
  unfold sys_write
  split
  · rfl
  · split
    · simp_all
    · rfl

theorem sys_write_valid (f : File) (h : tbl.getD fd none = some f) :
    sys_write env tbl token fd bufPtr len =
      (usizeToIsize (env.writeFn f (env.bufOf token bufPtr len)),
       [Ev.lockAcquire, Ev.lockRelease, Ev.translateBuf, Ev.ioWrite]) := by
  have hlt := getD_some_lt h
  unfold sys_write
  rw [if_neg (by omega), h]

theorem sys_read_invalid (h : tbl.getD fd none = none) :
    sys_read env tbl token fd bufPtr len = (-1, [Ev.lockAcquire, Ev.lockRelease]) := by
  unfold sys_read
  split
  · rfl
  · split
    · simp_all
    · rfl

theorem sys_read_valid (f : File) (h : tbl.getD fd none = some f) :
    sys_read env tbl token fd bufPtr len =
      (usizeToIsize (env.readFn f (env.bufOf token bufPtr len)),
       [Ev.lockAcquire, Ev.lockRelease, Ev.translateBuf, Ev.ioRead]) := by
  have hlt := getD_some_lt h
  unfold sys_read
  rw [if_neg (by omega), h]

theorem sys_fstat_invalid (h : tbl.getD fd none = none) :
    sys_fstat tbl fd = (-1, [Ev.lockAcquire, Ev.lockRelease]) := by
  unfold sys_fstat
  split
  · rfl
  · split
    · simp_all
    · rfl

theorem sys_fstat_valid (f : File) (h : tbl.getD fd none = some f) :
    sys_fstat tbl fd =
      (0, [Ev.lockAcquire, Ev.translateRef, Ev.ioInfo, Ev.lockRelease]) := by
  have hlt := getD_some_lt h
  unfold sys_fstat
  rw [if_neg (by omega), h]

end CaseLemmas

/-- Claim C1: `sys_read`/`sys_write` return `-1` iff `fd` is out of range or
its slot is empty; on a valid occupied fd they return the byte count reported
by the handle's `read`/`write` as a non-negative signed integer, never `-1`. -/
theorem c1_read_write_result (env : Env) (tbl : List (Option File))
    (token fd bufPtr len : Nat)
    (hw : ∀ f b, env.writeFn f b < 2 ^ 63) (hr : ∀ f b, env.readFn f b < 2 ^ 63) :
    (((sys_write env tbl token fd bufPtr len).1 = -1) ↔ fdInvalid tbl fd)
    ∧ (((sys_read env tbl token fd bufPtr len).1 = -1) ↔ fdInvalid tbl fd)
    ∧ (∀ f, tbl.getD fd none = some f →
        (sys_write env tbl token fd bufPtr len).1
            = (env.writeFn f (env.bufOf token bufPtr len) : Int)
        ∧ 0 ≤ (sys_write env tbl token fd bufPtr len).1
        ∧ (sys_read env tbl token fd bufPtr len).1
            = (env.readFn f (env.bufOf token bufPtr len) : Int)
        ∧ 0 ≤ (sys_read env tbl token fd bufPtr len).1) := by
  rcases hcase : tbl.getD fd none with _ | f
  · have hi : fdInvalid tbl fd := (fdInvalid_iff tbl fd).mpr hcase
    rw [sys_write_invalid hcase, sys_read_invalid hcase]
    refine ⟨iff_of_true rfl hi, iff_of_true rfl hi, ?_⟩
    intro f hf
    exact Option.noConfusion hf
  · have hlt := getD_some_lt hcase
    rw [sys_write_valid f hcase, sys_read_valid f hcase,
        usizeToIsize_small _ (hw f _), usizeToIsize_small _ (hr f _)]
    have hne : ¬ fdInvalid tbl fd := by
      rw [fdInvalid_iff, hcase]
      simp
    refine ⟨iff_of_false (natCast_fst_ne_negOne _ _) hne,
      iff_of_false (natCast_fst_ne_negOne _ _) hne, ?_⟩
    intro g hg
    injection hg with hg
    subst hg
    exact ⟨rfl, Int.natCast_nonneg _, rfl, Int.natCast_nonneg _⟩

theorem c1_witness :
    (((sys_write env0 [some 1] 0 0 0 7).1 = -1) ↔ fdInvalid [some 1] 0)
    ∧ (((sys_read env0 [some 1] 0 0 0 7).1 = -1) ↔ fdInvalid [some 1] 0)
    ∧ (∀ f, ([some 1] : List (Option File)).getD 0 none = some f →
        (sys_write env0 [some 1] 0 0 0 7).1
            = (env0.writeFn f (env0.bufOf 0 0 7) : Int)
        ∧ 0 ≤ (sys_write env0 [some 1] 0 0 0 7).1
        ∧ (sys_read env0 [some 1] 0 0 0 7).1
            = (env0.readFn f (env0.bufOf 0 0 7) : Int)
        ∧ 0 ≤ (sys_read env0 [some 1] 0 0 0 7).1) :=
  c1_read_write_result env0 [some 1] 0 0 0 7
    (fun _ _ => (by norm_num : (5 : Nat) < 2 ^ 63))
    (fun _ _ => (by norm_num : (3 : Nat) < 2 ^ 63))

/-- Claim C3: in `sys_read` and `sys_write` the exclusive lock is released
strictly before buffer translation and before the handle's `read`/`write`;
replaying the trace, no translation or I/O event occurs while the lock is
held, and on a valid occupied fd the trace is exactly acquire, release,
translate, I/O. -/
theorem c3_lock_released_before_io (env : Env) (tbl : List (Option File))
    (token fd bufPtr len : Nat) :
    lockDisc false (sys_write env tbl token fd bufPtr len).2 = true
    ∧ lockDisc false (sys_read env tbl token fd bufPtr len).2 = true
    ∧ (∀ f, tbl.getD fd none = some f →
        (sys_write env tbl token fd bufPtr len).2
            = [Ev.lockAcquire, Ev.lockRelease, Ev.translateBuf, Ev.ioWrite]
        ∧ (sys_read env tbl token fd bufPtr len).2
            = [Ev.lockAcquire, Ev.lockRelease, Ev.translateBuf, Ev.ioRead]) := by
  refine ⟨?_, ?_, ?_⟩
  · unfold sys_write
    split
    · rfl
    · split <;> rfl
  · unfold sys_read
    split
    · rfl
    · split <;> rfl
  · intro f heq
    rw [sys_write_valid f heq, sys_read_valid f heq]
    exact ⟨rfl, rfl⟩

theorem c3_witness :
    lockDisc false (sys_write env0 [some 1] 0 0 0 7).2 = true
    ∧ lockDisc false (sys_read env0 [some 1] 0 0 0 7).2 = true
    ∧ (∀ f, ([some 1] : List (Option File)).getD 0 none = some f →
        (sys_write env0 [some 1] 0 0 0 7).2
            = [Ev.lockAcquire, Ev.lockRelease, Ev.translateBuf, Ev.ioWrite]
        ∧ (sys_read env0 [some 1] 0 0 0 7).2
            = [Ev.lockAcquire, Ev.lockRelease, Ev.translateBuf, Ev.ioRead]) :=
  c3_lock_released_before_io env0 [some 1] 0 0 0 7

/-- Claim C4: on an invalid fd (out of range or empty slot), `sys_write`,
`sys_read` and `sys_fstat` return `-1` with a trace containing no
user-memory translation and no I/O event: user memory is never touched. -/
theorem c4_invalid_fd_frame (env : Env) (tbl : List (Option File))
    (token fd bufPtr len : Nat) (h : fdInvalid tbl fd) :
    (sys_write env tbl token fd bufPtr len).1 = -1
    ∧ (sys_read env tbl token fd bufPtr len).1 = -1
    ∧ (sys_fstat tbl fd).1 = -1
    ∧ (sys_write env tbl token fd bufPtr len).2.filter ioEv = []
    ∧ (sys_read env tbl token fd bufPtr len).2.filter ioEv = []
    ∧ (sys_fstat tbl fd).2.filter ioEv = [] := by
  have hnone : tbl.getD fd none = none := (fdInvalid_iff tbl fd).mp h
  rw [sys_write_invalid hnone, sys_read_invalid hnone, sys_fstat_invalid hnone]
  exact ⟨rfl, rfl, rfl, rfl, rfl, rfl⟩

theorem alloc_fd_le (tbl : List (Option File)) : alloc_fd tbl ≤ tbl.length := by
  induction tbl with
  | nil => simp [alloc_fd]
  | cons hd rest ih =>
      cases hd with
      | none => simp [alloc_fd]
      | some g =>
          simp only [alloc_fd, List.length_cons]
          omega

theorem alloc_fd_smallest (tbl : List (Option File)) (j : Nat) (hj : j < alloc_fd tbl) :
    (tbl.getD j none).isSome = true := by
  induction tbl generalizing j with
  | nil => simp [alloc_fd] at hj
  | cons hd rest ih =>
      cases hd with
      | none => simp [alloc_fd] at hj
      | some g =>
          cases j with
          | zero => rfl
          | succ j =>
              rw [List.getD_cons_succ]
              refine ih j ?_
              simp only [alloc_fd] at hj
              omega

theorem alloc_fd_slot (tbl : List (Option File)) (h : alloc_fd tbl < tbl.length) :
    tbl.getD (alloc_fd tbl) none = none := by
  induction tbl with
  | nil => simp at h
  | cons hd rest ih =>
      cases hd with
      | none => rfl
      | some g =>
          have h' : alloc_fd rest < rest.length := by
            simp only [alloc_fd, List.length_cons] at h
            omega
          show (some g :: rest).getD (alloc_fd rest + 1) none = none
          rw [List.getD_cons_succ]
          exact ih h'

theorem alloc_fd_eq_length_iff (tbl : List (Option File)) :
    alloc_fd tbl = tbl.length ↔ ¬ (none ∈ tbl) := by
  induction tbl with
  | nil => simp [alloc_fd]
  | cons hd rest ih =>
      cases hd with
      | none =>
          simp only [alloc_fd, List.length_cons, List.mem_cons]
          constructor
          · intro h
            omega
          · intro h
            exact absurd (Or.inl trivial) h
      | some g =>
          simp only [alloc_fd, List.length_cons, List.mem_cons]
          rw [Nat.add_right_cancel_iff, ih]
          simp

theorem allocStore_fst (f : File) (tbl : List (Option File)) :
    (allocStore f tbl).1 = alloc_fd tbl := by
  induction tbl with
  | nil => rfl
  | cons hd rest ih =>
      cases hd with
      | none => rfl
      | some g => simp [allocStore, alloc_fd, ih]

theorem allocStore_getD (f : File) (tbl : List (Option File)) :
    (allocStore f tbl).2.getD (allocStore f tbl).1 none = some f := by
  induction tbl with
  | nil => rfl
  | cons hd rest ih =>
      cases hd with
      | none => rfl
      | some g => simpa [allocStore] using ih

theorem getD_set_self (tbl : List (Option File)) (fd : Nat) :
    (tbl.set fd none).getD fd none = none := by
  rw [List.getD_eq_getElem?_getD, List.getElem?_set_self']
  cases tbl[fd]? <;> rfl

theorem getD_set_ne (tbl : List (Option File)) (fd j : Nat) (h : j ≠ fd) :
    (tbl.set fd none).getD j none = tbl.getD j none := by
  rw [List.getD_eq_getElem?_getD, List.getElem?_set_ne (fun he => h he.symm),
    List.getD_eq_getElem?_getD]

section CaseLemmas2

variable {env : Env} {tbl : List (Option File)} {token pathPtr flags fd : Nat}

theorem sys_open_abort (h : env.okFlags flags = false) :
    sys_open env tbl token pathPtr flags = (none, [Ev.translateStr]) := by
  simp [sys_open, h]

theorem sys_open_some (f : File) (hok : env.okFlags flags = true)
    (hopen : env.openFile (env.strOf token pathPtr) flags = some f) :
    sys_open env tbl token pathPtr flags
      = (some (((allocStore f tbl).1 : Int), (allocStore f tbl).2),
         [Ev.translateStr, Ev.facadeOpen, Ev.lockAcquire, Ev.lockRelease]) := by
  simp [sys_open, hok, hopen]

theorem sys_open_noFile (hok : env.okFlags flags = true)
    (hnone : env.openFile (env.strOf token pathPtr) flags = none) :
    sys_open env tbl token pathPtr flags
      = (some (-1, tbl), [Ev.translateStr, Ev.facadeOpen]) := by
  simp [sys_open, hok, hnone]

theorem sys_close_invalid (h : tbl.getD fd none = none) :
    sys_close tbl fd = (-1, tbl, [Ev.lockAcquire, Ev.lockRelease]) := by
  unfold sys_close
  split
  · rfl
  · rw [h]
    rfl

theorem sys_close_valid (f : File) (h : tbl.getD fd none = some f) :
    sys_close tbl fd = (0, tbl.set fd none, [Ev.lockAcquire, Ev.lockRelease]) := by
  have hlt := getD_some_lt h
  unfold sys_close
  rw [if_neg (by omega), h]
  rfl

end CaseLemmas2

theorem c4_witness :
    (sys_write env0 [none] 0 0 0 7).1 = -1
    ∧ (sys_read env0 [none] 0 0 0 7).1 = -1
    ∧ (sys_fstat [none] 0).1 = -1
    ∧ (sys_write env0 [none] 0 0 0 7).2.filter ioEv = []
    ∧ (sys_read env0 [none] 0 0 0 7).2.filter ioEv = []
    ∧ (sys_fstat [none] 0).2.filter ioEv = [] :=
  c4_invalid_fd_frame env0 [none] 0 0 0 7 (Or.inr (by decide))

/-- Claim C2: `sys_linkat` returns `-1` without invoking the facade when the
two translated paths are equal, leaving the filesystem state unchanged; for
distinct translated paths it invokes the facade's `linkat` and returns `0`
unconditionally (the facade's own status is discarded). -/
theorem c2_linkat_self_reject (env : Env) (fs : FsState) (token oldPtr newPtr : Nat) :
    (env.strOf token oldPtr = env.strOf token newPtr →
      sys_linkat env fs token oldPtr newPtr
          = (-1, fs, [Ev.translateStr, Ev.translateStr])
      ∧ Ev.facadeLink ∉ (sys_linkat env fs token oldPtr newPtr).2.2)
    ∧ (env.strOf token oldPtr ≠ env.strOf token newPtr →
      (sys_linkat env fs token oldPtr newPtr).1 = 0
      ∧ (sys_linkat env fs token oldPtr newPtr).2.1
          = (fsLinkat fs (env.strOf token oldPtr) (env.strOf token newPtr)).1
      ∧ Ev.facadeLink ∈ (sys_linkat env fs token oldPtr newPtr).2.2) := by
  constructor
  · intro heq
    constructor
    · simp [sys_linkat, heq]
    · simp [sys_linkat, heq]
  · intro hne
    refine ⟨?_, ?_, ?_⟩ <;> simp [sys_linkat, hne]

theorem c2_witness :
    (sys_linkat env0 fs0 0 2 2 = (-1, fs0, [Ev.translateStr, Ev.translateStr])
     ∧ Ev.facadeLink ∉ (sys_linkat env0 fs0 0 2 2).2.2)
    ∧ ((sys_linkat env0 fs0 0 2 3).1 = 0
       ∧ (sys_linkat env0 fs0 0 2 3).2.1
           = (fsLinkat fs0 (env0.strOf 0 2) (env0.strOf 0 3)).1
       ∧ Ev.facadeLink ∈ (sys_linkat env0 fs0 0 2 3).2.2) :=
  ⟨(c2_linkat_self_reject env0 fs0 0 2 2).1 rfl,
   (c2_linkat_self_reject env0 fs0 0 2 3).2 (by decide)⟩

/-- Claim C5: with recognized flags, when the facade returns a handle,
`sys_open` allocates a descriptor slot, stores the handle there and returns
that slot's index as a non-negative fd; when the facade returns no handle it
returns `-1` (and the table is unchanged). -/
theorem c5_open_alloc (env : Env) (tbl : List (Option File)) (token pathPtr flags : Nat)
    (hok : env.okFlags flags = true) :
    (∀ f, env.openFile (env.strOf token pathPtr) flags = some f →
      (sys_open env tbl token pathPtr flags).1
          = some (((allocStore f tbl).1 : Int), (allocStore f tbl).2)
      ∧ (allocStore f tbl).2.getD (allocStore f tbl).1 none = some f
      ∧ (0 : Int) ≤ ((allocStore f tbl).1 : Int))
    ∧ (env.openFile (env.strOf token pathPtr) flags = none →
      (sys_open env tbl token pathPtr flags).1 = some (-1, tbl)) := by
  constructor
  · intro f hopen
    rw [sys_open_some f hok hopen]
    exact ⟨rfl, allocStore_getD f tbl, Int.natCast_nonneg _⟩
  · intro hnone
    rw [sys_open_noFile hok hnone]

theorem c5_witness :
    ((sys_open env0 [some 1] 0 3 0).1
        = some (((allocStore 103 [some 1]).1 : Int), (allocStore 103 [some 1]).2)
     ∧ (allocStore 103 [some 1]).2.getD (allocStore 103 [some 1]).1 none = some 103
     ∧ (0 : Int) ≤ ((allocStore 103 [some 1]).1 : Int))
    ∧ (sys_open env0 [some 1] 0 9 0).1 = some (-1, [some 1]) :=
  ⟨(c5_open_alloc env0 [some 1] 0 3 0 (by decide)).1 103 (by decide),
   (c5_open_alloc env0 [some 1] 0 9 0 (by decide)).2 (by decide)⟩

/-- Claim C6: descriptor allocation returns the smallest empty index,
extending the table only when no slot is empty; concretely, with fds
`{0,1,2}` open, closing fd `1` and then opening a file yields fd `1`. -/
theorem c6_alloc_lowest :
    (∀ tbl : List (Option File), ∀ j, j < alloc_fd tbl → (tbl.getD j none).isSome = true)
    ∧ (∀ tbl : List (Option File), alloc_fd tbl < tbl.length →
        tbl.getD (alloc_fd tbl) none = none)
    ∧ (∀ tbl : List (Option File), alloc_fd tbl = tbl.length ↔ ¬ (none ∈ tbl))
    ∧ (sys_open env0 (sys_close [some 10, some 11, some 12] 1).2.1 0 3 0).1
        = some ((1 : Int), [some 10, some 103, some 12]) := by
  refine ⟨alloc_fd_smallest, alloc_fd_slot, alloc_fd_eq_length_iff, ?_⟩
  decide

theorem c6_witness :
    ((([some 10, none, some 12] : List (Option File)).getD 0 none).isSome = true)
    ∧ ([some 10, none, some 12] : List (Option File)).getD
        (alloc_fd [some 10, none, some 12]) none = none
    ∧ (alloc_fd ([some 10, some 11] : List (Option File))
          = ([some 10, some 11] : List (Option File)).length
        ↔ ¬ (none ∈ ([some 10, some 11] : List (Option File)))) :=
  ⟨c6_alloc_lowest.1 [some 10, none, some 12] 0 (by decide),
   c6_alloc_lowest.2.1 [some 10, none, some 12] (by decide),
   c6_alloc_lowest.2.2.1 [some 10, some 11]⟩

/-- Claim C7: `sys_unlinkat` translates the path and forwards the facade's
signed result verbatim: `-1` when the name does not exist, `0` on a
successful unlink. -/
theorem c7_unlinkat_forward (env : Env) (fs : FsState) (token namePtr : Nat) :
    (sys_unlinkat env fs token namePtr).1
        = (fsUnlinkat fs (env.strOf token namePtr)).2
    ∧ (sys_unlinkat env fs token namePtr).2.1
        = (fsUnlinkat fs (env.strOf token namePtr)).1
    ∧ (assocFind (env.strOf token namePtr) fs.dirents = none →
        (sys_unlinkat env fs token namePtr).1 = -1)
    ∧ (∀ ino, assocFind (env.strOf token namePtr) fs.dirents = some ino →
        (sys_unlinkat env fs token namePtr).1 = 0) := by
  refine ⟨rfl, rfl, ?_, ?_⟩
  · intro h
    simp [sys_unlinkat, fsUnlinkat, h]
  · intro ino h
    simp [sys_unlinkat, fsUnlinkat, h]

theorem c7_witness :
    ((sys_unlinkat env0 fs0 0 2).1 = -1) ∧ ((sys_unlinkat env0 fs0 0 1).1 = 0) :=
  ⟨(c7_unlinkat_forward env0 fs0 0 2).2.2.1 (by decide),
   (c7_unlinkat_forward env0 fs0 0 1).2.2.2 7 (by decide)⟩

/-- Claim C8: on an unrecognized flags bit pattern `sys_open` aborts (the
`unwrap` panic, modelled as the `none` outcome) rather than returning `-1`;
on a recognized pattern the abort is unreachable and the call proceeds. -/
theorem c8_open_flags (env : Env) (tbl : List (Option File)) (token pathPtr flags : Nat) :
    (env.okFlags flags = false →
      sys_open env tbl token pathPtr flags = (none, [Ev.translateStr]))
    ∧ (env.okFlags flags = true →
      (sys_open env tbl token pathPtr flags).1 ≠ none) := by
  constructor
  · exact fun h => sys_open_abort h
  · intro hok
    rcases hopen : env.openFile (env.strOf token pathPtr) flags with _ | f
    · rw [sys_open_noFile hok hopen]
      simp
    · rw [sys_open_some f hok hopen]
      simp

theorem c8_witness :
    (sys_open env0 [] 0 0 5 = (none, [Ev.translateStr]))
    ∧ (sys_open env0 [] 0 0 0).1 ≠ none :=
  ⟨(c8_open_flags env0 [] 0 0 5).1 (by decide),
   (c8_open_flags env0 [] 0 0 0).2 (by decide)⟩

/-- Claim C9: `sys_close` on a valid occupied fd empties that slot and
returns `0`, preserving the table's length and every other slot; on an
out-of-range fd or an already-empty slot it returns `-1` with the table
unchanged. -/
theorem c9_close (tbl : List (Option File)) (fd : Nat) :
    (∀ f, tbl.getD fd none = some f →
      (sys_close tbl fd).1 = 0
      ∧ (sys_close tbl fd).2.1 = tbl.set fd none
      ∧ ((sys_close tbl fd).2.1).getD fd none = none
      ∧ ((sys_close tbl fd).2.1).length = tbl.length
      ∧ (∀ j, j ≠ fd → ((sys_close tbl fd).2.1).getD j none = tbl.getD j none))
    ∧ (fdInvalid tbl fd →
      (sys_close tbl fd).1 = -1 ∧ (sys_close tbl fd).2.1 = tbl) := by
  constructor
  · intro f hf
    rw [sys_close_valid f hf]
    exact ⟨rfl, rfl, getD_set_self tbl fd, List.length_set tbl fd none,
      fun j hj => getD_set_ne tbl fd j hj⟩
  · intro hinv
    rw [sys_close_invalid ((fdInvalid_iff tbl fd).mp hinv)]
    exact ⟨rfl, rfl⟩

theorem c9_witness :
    ((sys_close [some 5, some 6] 0).1 = 0
     ∧ (sys_close [some 5, some 6] 0).2.1
         = ([some 5, some 6] : List (Option File)).set 0 none
     ∧ ((sys_close [some 5, some 6] 0).2.1).getD 0 none = none
     ∧ ((sys_close [some 5, some 6] 0).2.1).length
         = ([some 5, some 6] : List (Option File)).length
     ∧ (∀ j, j ≠ 0 → ((sys_close [some 5, some 6] 0).2.1).getD j none
         = ([some 5, some 6] : List (Option File)).getD j none))
    ∧ ((sys_close [some 5, some 6] 7).1 = -1
       ∧ (sys_close [some 5, some 6] 7).2.1 = [some 5, some 6]) :=
  ⟨(c9_close [some 5, some 6] 0).1 5 (by decide),
   (c9_close [some 5, some 6] 7).2 (Or.inl (by decide))⟩

/-- Claim C10: `sys_open` is atomic on failure — with recognized flags, when
the facade returns no handle the result is `-1` with the table unchanged and
the lock is never acquired; the lock-acquire event appears only on the
success branch, after the facade call. -/
theorem c10_open_fail_atomic (env : Env) (tbl : List (Option File))
    (token pathPtr flags : Nat) (hok : env.okFlags flags = true) :
    (env.openFile (env.strOf token pathPtr) flags = none →
      (sys_open env tbl token pathPtr flags).1 = some (-1, tbl)
      ∧ (sys_open env tbl token pathPtr flags).2 = [Ev.translateStr, Ev.facadeOpen]
      ∧ Ev.lockAcquire ∉ (sys_open env tbl token pathPtr flags).2)
    ∧ (∀ f, env.openFile (env.strOf token pathPtr) flags = some f →
      (sys_open env tbl token pathPtr flags).2
          = [Ev.translateStr, Ev.facadeOpen, Ev.lockAcquire, Ev.lockRelease]) := by
  constructor
  · intro hnone
    rw [sys_open_noFile hok hnone]
    exact ⟨rfl, rfl, by simp⟩
  · intro f hopen
    rw [sys_open_some f hok hopen]

theorem c10_witness :
    ((sys_open env0 [some 1] 0 9 0).1 = some (-1, [some 1])
     ∧ (sys_open env0 [some 1] 0 9 0).2 = [Ev.translateStr, Ev.facadeOpen]
     ∧ Ev.lockAcquire ∉ (sys_open env0 [some 1] 0 9 0).2)
    ∧ (sys_open env0 [some 1] 0 3 0).2
        = [Ev.translateStr, Ev.facadeOpen, Ev.lockAcquire, Ev.lockRelease] :=
  ⟨(c10_open_fail_atomic env0 [some 1] 0 9 0 (by decide)).1 (by decide),
   (c10_open_fail_atomic env0 [some 1] 0 3 0 (by decide)).2 103 (by decide)⟩

end Os6
